import Mathlib

/-!
Verification of the ffmpeg_cmdline_utils core: a shallow embedding of
`src/ffmpeg_stats.rs` (metadata probing / `VideoInfo::new`) and
`src/ffmpeg_ops.rs` (frame streaming via `FfmpegFrames`, bounded command
running via `run_ffmpeg_command`, `is_video_file`, builder `spawn`).

Modelling conventions:
* serde_json `Value` is the inductive `Json` below; a JSON number carries an
  integer value plus an `isInt` flag (`isInt = false` models a float-valued
  number, for which `as_i64` / `as_u64` return `None`, exactly as in serde).
* Rust machine integers are `Nat`/`Int` with explicit range checks / `% 2^32`
  truncation where the source casts (`as u32`).
* `f64` values are modelled exactly by `Rat`; the Rust `f64` grammar is
  modelled on its finite decimal/exponent fragment (non-finite literals such
  as inf/nan are outside the model; no claim depends on them).
* Stateful iteration (`FfmpegFrames::next`, the watchdog loop of
  `run_ffmpeg_command`) is explicit state passing; real time is an oracle
  list of clock readings, the decoder's stdout pipe is an oracle giving the
  total bytes available plus a chunk-size schedule.
-/

/-- Shallow embedding of `serde_json::Value`. A number is an integer `n`
together with `isInt`; `isInt = false` stands for a float-valued number. -/
inductive Json where
  | null
  | bool (b : Bool)
  | num (n : Int) (isInt : Bool)
  | str (s : String)
  | arr (elems : List Json)
  | obj (fields : List (String × Json))

/-- serde_json's `Value::index` with a string key: looks up an object field,
yielding `Null` for a missing key or a non-object. -/
def Json.get : Json → String → Json
  | .obj fields, key => ((fields.find? (fun kv => kv.1 == key)).map Prod.snd).getD .null
  | _, _ => .null

/-- serde_json's `Value::index` with a usize index: indexes an array, yielding
`Null` out of range or on a non-array. -/
def Json.idx : Json → Nat → Json
  | .arr elems, i => elems.getD i .null
  | _, _ => .null

/-- serde_json `Number::as_i64`: the value if it is an integer fitting i64. -/
def jsonAsI64 (n : Int) (isInt : Bool) : Option Int :=
  if isInt = true ∧ -(2 ^ 63) ≤ n ∧ n < 2 ^ 63 then some n else none

/-- serde_json `Number::as_u64`: the value if it is an integer fitting u64. -/
def jsonAsU64 (n : Int) (isInt : Bool) : Option Nat :=
  if isInt = true ∧ 0 ≤ n ∧ n < 2 ^ 64 then some n.toNat else none

/-- Numeric value of a list of ASCII digit characters. -/
def digitsToNat (ds : List Char) : Nat :=
  ds.foldl (fun a c => a * 10 + (c.toNat - 48)) 0

/-- Value of a nonempty all-digit character list, `none` otherwise; the core
of Rust's integer `FromStr` (which demands one or more ASCII digits). -/
def parseDigitsAll (ds : List Char) : Option Nat :=
  if ds.isEmpty ∨ ¬ ds.all Char.isDigit then none else some (digitsToNat ds)

/-- Rust unsigned-integer `FromStr`: optional leading `+`, one or more digits,
value below `bound` (overflow is an error). -/
def parseUnsignedBelow (bound : Nat) (s : String) : Option Nat :=
  let cs := match s.data with
    | '+' :: r => r
    | r => r
  match parseDigitsAll cs with
  | some v => if v < bound then some v else none
  | none => none

/-- Rust `str::parse::<u64>`. -/
def parseU64 : String → Option Nat := parseUnsignedBelow (2 ^ 64)

/-- Rust `str::parse::<u32>`. -/
def parseU32 : String → Option Nat := parseUnsignedBelow (2 ^ 32)

/-- Rust `str::parse::<i64>`: optional sign, one or more digits, i64 range. -/
def parseI64 (s : String) : Option Int :=
  let signAndDigits : Int × List Char :=
    match s.data with
    | '+' :: r => (1, r)
    | '-' :: r => (-1, r)
    | r => (1, r)
  match parseDigitsAll signAndDigits.2 with
  | some v =>
    let n : Int := signAndDigits.1 * v
    if -(2 ^ 63) ≤ n ∧ n < 2 ^ 63 then some n else none
  | none => none

/-- Rust `str::parse::<f64>` modelled over `Rat`: optional sign, decimal
digits with optional fraction part, optional decimal exponent. Values are
kept exact (no rounding); the non-finite literals accepted by Rust
(`inf`/`infinity`/`nan`) are outside the model. -/
def parseF64 (s : String) : Option Rat :=
  let signAndRest : Int × List Char :=
    match s.data with
    | '+' :: r => (1, r)
    | '-' :: r => (-1, r)
    | r => (1, r)
  let cs1 := signAndRest.2
  let intPart := cs1.takeWhile Char.isDigit
  let rest1 := cs1.dropWhile Char.isDigit
  let fracAndRest : List Char × List Char :=
    match rest1 with
    | '.' :: r => (r.takeWhile Char.isDigit, r.dropWhile Char.isDigit)
    | r => ([], r)
  let fracPart := fracAndRest.1
  if intPart.isEmpty && fracPart.isEmpty then none
  else
    let m : Int := signAndRest.1 * digitsToNat (intPart ++ fracPart)
    let k := fracPart.length
    match fracAndRest.2 with
    | [] => some (mkRat m (10 ^ k))
    | e :: r =>
      if e = 'e' ∨ e = 'E' then
        let esignAndDigits : Bool × List Char :=
          match r with
          | '+' :: rr => (true, rr)
          | '-' :: rr => (false, rr)
          | rr => (true, rr)
        match parseDigitsAll esignAndDigits.2 with
        | some ex =>
          if esignAndDigits.1 then some (mkRat (m * 10 ^ ex) (10 ^ k))
          else some (mkRat m (10 ^ (k + ex)))
        | none => none
      else none

/-- Error enum of `ffmpeg_stats.rs` (`VideoInfoError`), payloads are the
formatted error texts. -/
inductive VideoInfoError where
  | JsonError (msg : String)
  | ParseIntError (msg : String)
  | ParseFloatError (msg : String)
deriving DecidableEq, Repr

/-- Modelled from the spec: `ffmpeg_error_kind.rs` is declared by `lib.rs`
but is not under `src/`, so the variants are reconstructed from the spec's
error taxonomy (§7: `ToolNotFound`, `SpawnOrIoFailure(detail)`,
`NonZeroExit(truncated stderr)`, `Timeout`, `InvalidResolution`,
`TextEncodingFailure`, `MetadataParseFailure`) and from the constructors the
code under `src/` actually uses (src name ↦ spec name: `FfmpegNotFound` ↦
`ToolNotFound`, `Io` ↦ `SpawnOrIoFailure`, `FfmpegInternal` ↦ `NonZeroExit`,
`Utf8Conversion` ↦ `TextEncodingFailure`, `From<VideoInfoError>` ↦
`MetadataParseFailure`). No code under `src/` ever constructs `Timeout`. -/
inductive FfmpegErrorKind where
  | ToolNotFound
  | SpawnOrIoFailure (detail : String)
  | NonZeroExit (stderrTrunc : String)
  | Timeout
  | InvalidResolution
  | TextEncodingFailure
  | MetadataParseFailure (e : VideoInfoError)
deriving DecidableEq, Repr

/-- Modelled from the spec: a display string for `FfmpegErrorKind` (the
`Display` impl lives in the missing `ffmpeg_error_kind.rs`). Only used as an
opaque payload by the builder's `map_err`; no claim depends on its text. -/
def FfmpegErrorKind.display : FfmpegErrorKind → String
  | .ToolNotFound => "ffmpeg not found"
  | .SpawnOrIoFailure d => "io error: " ++ d
  | .NonZeroExit d => "ffmpeg internal error: " ++ d
  | .Timeout => "timeout"
  | .InvalidResolution => "invalid resolution"
  | .TextEncodingFailure => "utf8 conversion failure"
  | .MetadataParseFailure _ => "error parsing stats"

/-- `FfmpegVideoRotation` of `ffmpeg_stats.rs`. -/
inductive FfmpegVideoRotation where
  | Rot0
  | Rot90
  | Rot180
  | Rot270
deriving DecidableEq, Repr

/-- `VideoInfo` of `ffmpeg_stats.rs` (`duration: f64` modelled as `Rat`,
`size: u64` and `bit_rate: u32` as `Nat` — their parsers enforce the ranges,
`resolution: (u32, u32)` as `Nat × Nat`). -/
structure VideoInfo where
  duration : Rat
  size : Nat
  bit_rate : Nat
  resolution : Nat × Nat
  has_audio : Bool
deriving DecidableEq, Repr

/-- `streams_of_type` (nested fn in `VideoInfo::new`, ffmpeg_stats.rs:94):
all streams whose `codec_type` equals `stream_type`, `None` when `streams`
is absent or not an array. -/
def streams_of_type (stats_parsed : Json) (stream_type : String) : Option (List Json) :=
  match stats_parsed.get "streams" with
  | .arr streams =>
    some (streams.filter (fun s =>
      match s.get "codec_type" with
      | .str codec_type => codec_type == stream_type
      | _ => false))
  | _ => none

/-- `first_u32_from_video_streams` (nested fn in `VideoInfo::new`,
ffmpeg_stats.rs:111): first numeric `field_name` among video streams, cast
`as u32` (truncating, modelled by `% 2^32`). -/
def first_u32_from_video_streams (stats_parsed : Json) (field_name : String) : Option Nat :=
  match streams_of_type stats_parsed "video" with
  | none => none
  | some video_streams =>
    let all_matched_values := video_streams.filterMap (fun stream =>
      match stream.get field_name with
      | .num v isInt => (jsonAsU64 v isInt).map (fun u => u % 2 ^ 32)
      | _ => none)
    all_matched_values.head?

/-- The `error_out` closure of `VideoInfo::new` (ffmpeg_stats.rs:131). -/
def error_out (src_path rotation : String) : Except VideoInfoError FfmpegVideoRotation :=
  .error (.ParseIntError
    ("ffprobe failure. Got unexpected rotation. src_path: " ++ src_path ++ ", " ++ rotation))

/-- Stand-in text for `std::num::ParseIntError`'s display (the exact text is
irrelevant to every claim). -/
def intParseErrMsg : String := "invalid digit found in string"

/-- Stand-in text for `std::num::ParseFloatError`'s display. -/
def floatParseErrMsg : String := "invalid float literal"

/-- The rotation-determination block of `VideoInfo::new`
(ffmpeg_stats.rs:138-179), verbatim structure: no video-stream array or no
video stream or a `Null` rotation give `Rot0`; a string rotation is parsed
as i64 and accepts 0, 90, 180, −90, 270 (note: NOT −180); a numeric rotation
via `as_i64` accepts 0, 90, 180, −180, −90, 270; anything else errors. -/
def parseRotation (src_path : String) (stats_parsed : Json) :
    Except VideoInfoError FfmpegVideoRotation :=
  match streams_of_type stats_parsed "video" with
  | some video_streams =>
    match video_streams with
    | [] => .ok .Rot0
    | s0 :: _ =>
      match ((s0.get "side_data_list").idx 0).get "rotation" with
      | .null => .ok .Rot0
      | .str rotation =>
        match parseI64 rotation with
        | some r =>
          if r = 0 then .ok .Rot0
          else if r = 90 then .ok .Rot90
          else if r = 180 then .ok .Rot180
          else if r = -90 ∨ r = 270 then .ok .Rot270
          else error_out src_path (toString r)
        | none => .error (.ParseIntError intParseErrMsg)
      | .num rotation isInt =>
        match jsonAsI64 rotation isInt with
        | some r =>
          if r = 0 then .ok .Rot0
          else if r = 90 then .ok .Rot90
          else if r = 180 ∨ r = -180 then .ok .Rot180
          else if r = -90 ∨ r = 270 then .ok .Rot270
          else error_out src_path (toString r)
        | none => error_out src_path "<ERROR>"
      | _ => .error (.JsonError "Failed to parse JSON")
  | none => .ok .Rot0

/-- The repeated field idiom of `VideoInfo::new` (ffmpeg_stats.rs:73-92):
`if let Value::String(d) = field { d.parse().map_err(...)? } else { default }` —
a non-string (absent or wrong-typed) field degrades to the default, a present
string that fails to parse aborts the probe. -/
def parseStrField {α : Type} (fieldVal : Json) (parse : String → Option α)
    (dflt : α) (errOnFail : VideoInfoError) : Except FfmpegErrorKind α :=
  match fieldVal with
  | .str s =>
    match parse s with
    | some v => .ok v
    | none => .error (.MetadataParseFailure errOnFail)
  | _ => .ok dflt

/-- `VideoInfo::new` (ffmpeg_stats.rs:64-207) from the parsed probe JSON.
The upstream steps (running ffprobe, utf8-decoding stdout, `serde_json::from_str`)
are prior to the value this takes; every claim about `VideoInfo::new`
quantifies over the parsed probe output. -/
def VideoInfo.new (src_path : String) (stats_parsed : Json) :
    Except FfmpegErrorKind VideoInfo := do
  let duration : Rat ← parseStrField ((stats_parsed.get "format").get "duration")
    parseF64 0 (.ParseFloatError floatParseErrMsg)
  let size : Nat ← parseStrField ((stats_parsed.get "format").get "size")
    parseU64 0 (.ParseIntError intParseErrMsg)
  let bit_rate : Nat ← parseStrField ((stats_parsed.get "format").get "bit_rate")
    parseU32 0 (.ParseIntError intParseErrMsg)
  let rotation : FfmpegVideoRotation ←
    match parseRotation src_path stats_parsed with
    | .ok r => pure r
    | .error e => throw (.MetadataParseFailure e)
  let first_width := (first_u32_from_video_streams stats_parsed "width").getD 0
  let first_height := (first_u32_from_video_streams stats_parsed "height").getD 0
  let resolution :=
    match rotation with
    | .Rot0 | .Rot180 => (first_width, first_height)
    | _ => (first_height, first_width)
  let has_audio :=
    match streams_of_type stats_parsed "audio" with
    | none => false
    | some audio_streams =>
      audio_streams.any (fun stream =>
        match stream.get "codec_type" with
        | .str codec_type => codec_type == "audio"
        | _ => false)
  pure { duration, size, bit_rate, resolution, has_audio }

/-- The raw `rotation` side-data value of the first video stream
(`video_streams[0]["side_data_list"][0]["rotation"]`), `none` when there is
no video-stream array or no video stream. Statement-side helper. -/
def rotationSideData (j : Json) : Option Json :=
  match streams_of_type j "video" with
  | some (s0 :: _) => some (((s0.get "side_data_list").idx 0).get "rotation")
  | _ => none

/-- The integer rotation value the first video stream declares, through
either encoding (a JSON number read `as_i64`, or a numeric JSON string read
with `parse::<i64>`). Statement-side helper. -/
def declaredRotation (j : Json) : Option Int :=
  match rotationSideData j with
  | some (.num n isInt) => jsonAsI64 n isInt
  | some (.str s) => parseI64 s
  | _ => none

/-- Rust `str::trim` (leading and trailing whitespace removed). -/
def trimChars (cs : List Char) : List Char :=
  ((cs.dropWhile Char.isWhitespace).reverse.dropWhile Char.isWhitespace).reverse

/-- Rust `str::split('|')`: the pieces between the separators (k separators
give k+1 pieces; the empty string gives one empty piece). -/
def splitOnPipe : List Char → List (List Char)
  | [] => [[]]
  | c :: rest =>
    let r := splitOnPipe rest
    if c = '|' then [] :: r
    else
      match r with
      | f :: t => (c :: f) :: t
      | [] => [[c]]

/-- `is_video_file` (ffmpeg_ops.rs:209-251), as a function of the prober's
compact stdout for the narrow `stream=codec_type,codec_name,duration` query
(`get_ffprobe_output` trims it; ffprobe emits the fields in stream-section
order, so field 0 is codec_name, field 1 codec_type, field 2 duration). The
command/utf8 error paths are prior to this value. -/
def is_video_file (stdout : String) : Bool :=
  let streams_string := trimChars stdout.data
  let fields := splitOnPipe streams_string
  let _codec_name := (fields.get? 0).getD []
  let codec_type := (fields.get? 1).getD []
  let duration : Rat := (parseF64 (String.mk (trimChars ((fields.get? 2).getD [])))).getD 999
  if codec_type ≠ "video".data then false
  else if duration < 1 then false
  else true

/-- `FfmpegFrames` (ffmpeg_ops.rs:20-28). The `child: std::process::Child`
handle is modelled by two flags recording whether `kill()` and `wait()` have
been called on it; `x`, `y`, `num_frames`, `frames_read` are u32 values
(range hypotheses appear where overflow matters), `timeout_time` is a
`SystemTime` as a Nat. -/
structure FfmpegFrames where
  x : Nat
  y : Nat
  num_frames : Nat
  frames_read : Nat
  timeout_time : Nat
  finished : Bool
  child_killed : Bool
  child_waited : Bool
deriving DecidableEq, Repr

/-- The decoder's stdout pipe: `total` bytes remain until end-of-stream, and
`chunks` schedules how many bytes each `read` call yields (`none` models a
read failing with an IO error; an exhausted schedule lets a read return
everything asked for). -/
structure Pipe where
  total : Nat
  chunks : List (Option Nat)
deriving DecidableEq, Repr

/-- One POSIX `read` of at most `r` bytes: an `Err` if scheduled, `Ok 0`
exactly at end-of-stream, otherwise between 1 and `min r total` bytes. -/
def pipeRead (r : Nat) (p : Pipe) : Option Nat × Pipe :=
  match p.chunks.headD (some r) with
  | none => (none, { p with chunks := p.chunks.tail })
  | some k =>
    if p.total = 0 then (some 0, { p with chunks := p.chunks.tail })
    else
      let c := min (max 1 (min k r)) p.total
      (some c, { total := p.total - c, chunks := p.chunks.tail })

/-- The oracle environment a `next` call runs in: successive `SystemTime::now()`
readings (an exhausted list reads as time 0) and the stdout pipe. -/
structure Env where
  clock : List Nat
  pipe : Pipe
deriving DecidableEq, Repr

inductive FillRes where
  | timeoutHit
  | eofOrErr
  | full
deriving DecidableEq, Repr

/-- The buffer-filling `while buf_head < raw_buf.len()` loop of
`FfmpegFrames::next` (ffmpeg_ops.rs:50-70): each iteration re-checks the
deadline (one clock reading), then reads into the unfilled tail of the
buffer; `Err(_)` or `Ok(0)` end the stream, otherwise `buf_head` advances by
the bytes read (the 10ms sleep has no observable effect beyond the clock). -/
def fillLoop (timeout_time len buf_head : Nat) (clock : List Nat) (p : Pipe) :
    FillRes × List Nat × Pipe :=
  if _h : buf_head < len then
    let now := clock.headD 0
    let clock' := clock.tail
    if timeout_time < now then (.timeoutHit, clock', p)
    else
      match pipeRead (len - buf_head) p with
      | (none, p') => (.eofOrErr, clock', p')
      | (some 0, p') => (.eofOrErr, clock', p')
      | (some (c + 1), p') => fillLoop timeout_time len (buf_head + (c + 1)) clock' p'
  else (.full, clock, p)
termination_by len - buf_head
decreasing_by omega

/-- `FfmpegFrames::next` (ffmpeg_ops.rs:33-74). Returns the produced frame
as its byte length (`some (x*y*3 mod 2^32)`, the content being opaque pixel
data), the successor state and the remaining oracle. -/
def FfmpegFrames.next (s : FfmpegFrames) (e : Env) :
    Option Nat × FfmpegFrames × Env :=
  let read_enough_frames := s.num_frames ≤ s.frames_read
  let now := e.clock.headD 0
  let clock' := e.clock.tail
  let exceeded_timeout := s.timeout_time < now
  if s.finished || read_enough_frames || exceeded_timeout then
    (none, { s with finished := true, child_killed := true, child_waited := true },
      { e with clock := clock' })
  else
    let len := s.x * s.y * 3 % 2 ^ 32
    match fillLoop s.timeout_time len 0 clock' e.pipe with
    | (.timeoutHit, clock'', p') => (none, { s with finished := true }, ⟨clock'', p'⟩)
    | (.eofOrErr, clock'', p') => (none, { s with finished := true }, ⟨clock'', p'⟩)
    | (.full, clock'', p') =>
      (some len, { s with frames_read := s.frames_read + 1 }, ⟨clock'', p'⟩)

/-- `Drop for FfmpegFrames` (ffmpeg_ops.rs:79-84): unconditionally kill and
wait the child, ignoring errors. -/
def FfmpegFrames.drop (s : FfmpegFrames) : FfmpegFrames :=
  { s with child_killed := true, child_waited := true }

/-- Driving the iterator: repeatedly call `next`, collecting produced frames
until `next` yields `None` (or fuel runs out). -/
def consume : Nat → FfmpegFrames → Env → List Nat × FfmpegFrames × Env
  | 0, s, e => ([], s, e)
  | fuel + 1, s, e =>
    match s.next e with
    | (none, s', e') => ([], s', e')
    | (some f, s', e') =>
      let r := consume fuel s' e'
      (f :: r.1, r.2)

/-- The image crate's `ImageBuffer:: image_buffer_len` for `Rgb<u8>`:
`width*height*3` via checked u64 arithmetic. -/
def image_buffer_len (width height : Nat) : Option Nat :=
  if width * height * 3 < 2 ^ 64 then some (width * height * 3) else none

/-- `RgbImage::from_raw width height buf` succeeds iff the required length
is representable and at most the buffer's length; the buffer is its byte
length here (content is irrelevant to the check). -/
def rgbImage_from_raw (width height bufLen : Nat) : Option Nat :=
  match image_buffer_len width height with
  | some min_len => if min_len ≤ bufLen then some bufLen else none
  | none => none

/-- `std::io::ErrorKind` values relevant to `run_ffmpeg_command` (matched by
`e.kind()`; `debugText` is the `format!("{:?}", e.kind())` payload). -/
inductive OsErrKind where
  | notFound
  | timedOut
  | other (debugText : String)
deriving DecidableEq, Repr

/-- The `format!("{:?}", e.kind())` Debug text. -/
def OsErrKind.debugText : OsErrKind → String
  | .notFound => "NotFound"
  | .timedOut => "TimedOut"
  | .other s => s

/-- One `child.try_wait()` observation: an OS error, still running, or
exited with the given success flag (`ExitStatus::success`). -/
inductive TryWaitRes where
  | err (k : OsErrKind)
  | running
  | exited (success : Bool)
deriving DecidableEq, Repr

/-- `FFPROBE_TIMEOUT_SECS` (ffmpeg_ops.rs:17). -/
def FFPROBE_TIMEOUT_SECS : Nat := 60

/-- The watchdog thread body of `run_ffmpeg_command` (ffmpeg_ops.rs:345-371):
poll `try_wait` until the child exits or errors; 100 fast polls (with the
seconds counter ticking once when they are spent), then one poll per second
until the 60-second ceiling, when it reports `TimedOut` without killing the
child. `polls` is the oracle of successive `try_wait` results (exhausted =
still running). -/
def watchdogLoop (polls : List TryWaitRes)
    (timeout_counter_secs initial_fast_counts : Nat) : Except OsErrKind Bool :=
  if timeout_counter_secs < FFPROBE_TIMEOUT_SECS then
    match polls.headD .running with
    | .err e => .error e
    | .exited s => .ok s
    | .running =>
      if _h : initial_fast_counts < 100 then
        let initial_fast_counts' := initial_fast_counts + 1
        let timeout_counter_secs' :=
          if initial_fast_counts' = 100 then timeout_counter_secs + 1
          else timeout_counter_secs
        watchdogLoop polls.tail timeout_counter_secs' initial_fast_counts'
      else
        watchdogLoop polls.tail (timeout_counter_secs + 1) initial_fast_counts
  else .error .timedOut
termination_by (FFPROBE_TIMEOUT_SECS - timeout_counter_secs) * 101 + (100 - initial_fast_counts)
decreasing_by
  · simp only [FFPROBE_TIMEOUT_SECS] at *; split <;> omega
  · simp only [FFPROBE_TIMEOUT_SECS] at *; omega

/-- `truncate_ffmpeg_err_msg` (ffmpeg_ops.rs:326-331): decode stderr as
UTF-8 and keep the first 500 chars, or report the encoding failure. The
decoded text is handed in directly (`none` = invalid UTF-8); byte-level
UTF-8 decoding is outside the model and irrelevant to every claim. -/
def truncate_ffmpeg_err_msg (stderrText : Option String) : FfmpegErrorKind :=
  match stderrText with
  | some error_text => .NonZeroExit (String.mk (error_text.data.take 500))
  | none => .TextEncodingFailure

/-- `FfmpegOutput` (ffmpeg_ops.rs:314): accumulated stdout (bytes abstracted
to an opaque string) and stderr. -/
structure FfmpegOutput where
  _stderr : Option String
  stdout : String
deriving DecidableEq, Repr

/-- `run_ffmpeg_command` (ffmpeg_ops.rs:321-426) after the spawn: the
calling thread drains stdout/stderr to completion (the accumulated results
are the `stdout_acc` / `stderr_acc` oracles), joins the watchdog and
classifies its verdict: `NotFound` error ↦ `ToolNotFound` (src
`FfmpegNotFound`), any other error — including the watchdog's own
`TimedOut` — ↦ `SpawnOrIoFailure` of its Debug text (src `Io`), non-zero
exit ↦ the truncated stderr error (ffmpeg_ops.rs:406-425; split out of
`run_ffmpeg_command` below as a named function). The returned flag records
whether the runner killed the child: the source contains no kill on any
path. -/
def classifyExitStatus (exit_status : Except OsErrKind Bool)
    (stdout_acc : String) (stderr_acc : Option String) :
    Except FfmpegErrorKind FfmpegOutput × Bool :=
  match exit_status with
  | .error e =>
    match e with
    | .notFound => (.error .ToolNotFound, false)
    | e => (.error (.SpawnOrIoFailure e.debugText), false)
  | .ok success =>
    if success then (.ok { _stderr := stderr_acc, stdout := stdout_acc }, false)
    else (.error (truncate_ffmpeg_err_msg stderr_acc), false)

def run_ffmpeg_command (spawnRes : Except FfmpegErrorKind Unit)
    (polls : List TryWaitRes) (stdout_acc : String) (stderr_acc : Option String) :
    Except FfmpegErrorKind FfmpegOutput × Bool :=
  match spawnRes with
  | .error e => (.error e, false)
  | .ok _ =>
    let exit_status := watchdogLoop polls 0 0
    classifyExitStatus exit_status stdout_acc stderr_acc

/-- Result of `FfmpegFrameReaderBuilder::spawn`, distinguishing failures
that occur before the decoder process is spawned from failures of the spawn
itself. -/
inductive SpawnTrace where
  | noLaunch (e : FfmpegErrorKind)
  | launchFailed (e : FfmpegErrorKind)
  | launched (frames : FfmpegFrames) (stats : VideoInfo)
deriving DecidableEq, Repr

/-- `FfmpegFrameReaderBuilder::spawn` (ffmpeg_ops.rs:118-190): probe the
source (`probe` is the `VideoInfo::new` outcome for `src_path`), mapping a
probe error into `Io(e.to_string())`; bail out with `InvalidResolution`
before any spawn when a dimension is zero; otherwise spawn the decoder
(`spawn_ffmpeg_command` outcome given by `spawnChild`), drop its stderr, and
build the `FfmpegFrames` state with `num_frames.unwrap_or(u32::MAX)` and
deadline `now + timeout_secs.unwrap_or(u32::MAX)`. -/
def FfmpegFrameReaderBuilder.spawn (probe : Except FfmpegErrorKind VideoInfo)
    (num_frames : Option Nat) (timeout_secs : Option Nat)
    (spawnChild : Except FfmpegErrorKind Unit) (now : Nat) : SpawnTrace :=
  match probe.mapError (fun e => FfmpegErrorKind.SpawnOrIoFailure e.display) with
  | .error e => .noLaunch e
  | .ok stats =>
    let (x, y) := stats.resolution
    if x = 0 ∨ y = 0 then .noLaunch .InvalidResolution
    else
      match spawnChild with
      | .error e => .launchFailed e
      | .ok _ =>
        .launched
          { x := x, y := y
            num_frames := num_frames.getD (2 ^ 32 - 1)
            frames_read := 0
            timeout_time := now + timeout_secs.getD (2 ^ 32 - 1)
            finished := false
            child_killed := false
            child_waited := false } stats

/-! ### Helper lemmas (shared; none of these is a claim's theorem) -/

/-- While every `try_wait` poll reports the child still running, the watchdog
reaches its 60-second ceiling and reports `TimedOut`. -/
theorem watchdogLoop_timedOut (polls : List TryWaitRes)
    (timeout_counter_secs initial_fast_counts : Nat)
    (h : ∀ q ∈ polls, q = TryWaitRes.running) :
    watchdogLoop polls timeout_counter_secs initial_fast_counts = .error .timedOut := by
  induction polls, timeout_counter_secs, initial_fast_counts using watchdogLoop.induct with
  | case1 polls c f hc e he =>
    exfalso
    cases polls with
    | nil => simp [List.headD] at he
    | cons q rest =>
      have := h q (by simp)
      rw [this] at he
      exact absurd he (by simp)
  | case2 polls c f hc s he =>
    exfalso
    cases polls with
    | nil => simp [List.headD] at he
    | cons q rest =>
      have := h q (by simp)
      rw [this] at he
      exact absurd he (by simp)
  | case3 polls c f hc he hfast f' tc' ih =>
    rw [watchdogLoop]
    simp only [hc, if_pos, he]
    rw [dif_pos hfast]
    exact ih (fun q hq => h q (List.mem_of_mem_tail hq))
  | case4 polls c f hc he hfast ih =>
    rw [watchdogLoop]
    simp only [hc, if_pos, he]
    rw [dif_neg hfast]
    exact ih (fun q hq => h q (List.mem_of_mem_tail hq))
  | case5 polls c f hc =>
    rw [watchdogLoop]
    exact if_neg hc

/-- Once the `finished` flag is set, `next` takes only its first branch:
no frame, flag stays set, and the child is killed and reaped. -/
theorem next_finished (s : FfmpegFrames) (e : Env) (hf : s.finished = true) :
    s.next e = (none,
      { s with finished := true, child_killed := true, child_waited := true },
      { e with clock := e.clock.tail }) := by
  simp [FfmpegFrames.next, hf]

/-- `Drop for FfmpegFrames` kills and reaps unconditionally and touches
nothing else. -/
theorem drop_kills (s : FfmpegFrames) :
    (FfmpegFrames.drop s).child_killed = true ∧ (FfmpegFrames.drop s).child_waited = true ∧
    (FfmpegFrames.drop s).finished = s.finished := by
  simp [FfmpegFrames.drop]

/-- A read that fails with an IO error was scheduled as one. -/
theorem pipeRead_none (r : Nat) (p p' : Pipe) (h : pipeRead r p = (none, p')) :
    p.chunks.headD (some r) = none := by
  unfold pipeRead at h
  cases hh : p.chunks.headD (some r) with
  | none => rfl
  | some k =>
    rw [hh] at h
    by_cases ht : p.total = 0 <;> simp [ht] at h

/-- A zero-byte read happens exactly at end-of-stream. -/
theorem pipeRead_zero (r : Nat) (p p' : Pipe) (h : pipeRead r p = (some 0, p')) :
    p.total = 0 := by
  unfold pipeRead at h
  cases hh : p.chunks.headD (some r) with
  | none => rw [hh] at h; simp at h
  | some k =>
    rw [hh] at h
    by_cases ht : p.total = 0
    · exact ht
    · simp [ht] at h

/-- A successful read of `c+1` bytes stays within both the request and the
stream, and advances the pipe accordingly. -/
theorem pipeRead_succ (r c : Nat) (p p' : Pipe) (hr : 1 ≤ r)
    (h : pipeRead r p = (some (c + 1), p')) :
    c + 1 ≤ r ∧ c + 1 ≤ p.total ∧ p'.total = p.total - (c + 1) ∧
    p'.chunks = p.chunks.tail := by
  unfold pipeRead at h
  cases hh : p.chunks.headD (some r) with
  | none => rw [hh] at h; simp at h
  | some k =>
    rw [hh] at h
    by_cases ht : p.total = 0
    · simp [ht] at h
    · simp [ht] at h
      obtain ⟨hc, hp⟩ := h
      subst hp
      refine ⟨by omega, by omega, by simp; omega, by simp⟩

/-- Behaviour of the buffer-filling loop when the clock never passes the
deadline and no IO error is scheduled: it fills the buffer completely
whenever the stream still holds the missing `len - buf_head` bytes (consuming
exactly that many), and otherwise drains the stream and ends at the
zero-byte read. -/
theorem fillLoop_spec (tt len : Nat) (buf_head : Nat) (clock : List Nat) (p : Pipe)
    (hclock : ∀ t ∈ clock, t ≤ tt) (hchunks : ∀ o ∈ p.chunks, Option.isSome o) :
    (len - buf_head ≤ p.total →
      ∃ clock' chunks', fillLoop tt len buf_head clock p
          = (.full, clock', { total := p.total - (len - buf_head), chunks := chunks' })
        ∧ (∀ t ∈ clock', t ≤ tt) ∧ (∀ o ∈ chunks', Option.isSome o))
    ∧ (p.total < len - buf_head →
      ∃ clock' p', fillLoop tt len buf_head clock p = (.eofOrErr, clock', p')) := by
  induction buf_head, clock, p using fillLoop.induct tt len with
  | case1 buf_head clock p hlt now hnow =>
    exfalso
    have hnoweq : now = clock.headD 0 := rfl
    rw [hnoweq] at hnow
    cases clock with
    | nil => simp only [List.headD] at hnow; omega
    | cons t rest =>
      have := hclock t (by simp)
      simp only [List.headD] at hnow
      omega
  | case2 buf_head clock p hlt now hnow p' hread =>
    exfalso
    have := pipeRead_none _ _ _ hread
    cases hch : p.chunks with
    | nil => rw [hch] at this; simp only [List.headD] at this; exact Option.noConfusion this
    | cons o rest =>
      have ho := hchunks o (by rw [hch]; simp)
      rw [hch] at this
      simp only [List.headD] at this
      rw [this] at ho
      simp at ho
  | case3 buf_head clock p hlt now hnow p' hread =>
    have htot := pipeRead_zero _ _ _ hread
    constructor
    · intro hle
      omega
    · intro _
      rw [fillLoop]
      rw [dif_pos hlt, if_neg (by exact hnow), hread]
      exact ⟨clock.tail, p', rfl⟩
  | case4 buf_head clock p hlt now clock' hnow c p' hread ih =>
    have hr : 1 ≤ len - buf_head := by omega
    obtain ⟨hcr, hct, hpt, hpc⟩ := pipeRead_succ _ _ _ _ hr hread
    have hclock' : ∀ t ∈ clock.tail, t ≤ tt :=
      fun t ht => hclock t (List.mem_of_mem_tail ht)
    have hchunks' : ∀ o ∈ p'.chunks, Option.isSome o := by
      rw [hpc]
      exact fun o ho => hchunks o (List.mem_of_mem_tail ho)
    have ihs := ih hclock' hchunks'
    constructor
    · intro hle
      have hle' : len - (buf_head + (c + 1)) ≤ p'.total := by omega
      obtain ⟨ck, chs, heq, hi1, hi2⟩ := ihs.1 hle'
      refine ⟨ck, chs, ?_, hi1, hi2⟩
      rw [fillLoop]
      rw [dif_pos hlt, if_neg (by exact hnow), hread]
      show fillLoop tt len (buf_head + (c + 1)) clock.tail p'
          = (FillRes.full, ck, { total := p.total - (len - buf_head), chunks := chs })
      rw [heq]
      have harith : p'.total - (len - (buf_head + (c + 1))) = p.total - (len - buf_head) := by
        omega
      rw [harith]
    · intro hgt
      have hgt' : p'.total < len - (buf_head + (c + 1)) := by omega
      obtain ⟨ck, pp, heq⟩ := ihs.2 hgt'
      refine ⟨ck, pp, ?_⟩
      rw [fillLoop]
      rw [dif_pos hlt, if_neg (by exact hnow), hread]
      exact heq
  | case5 buf_head clock p hge =>
    constructor
    · intro _
      refine ⟨clock, p.chunks, ?_, hclock, hchunks⟩
      rw [fillLoop]
      rw [dif_neg hge]
      have hz : len - buf_head = 0 := by omega
      rw [hz]
      simp
    · intro hgt
      omega

/-- The top-of-`next` exit check: already finished, frame cap reached, or
deadline passed — kill, reap, end the sequence. -/
theorem next_entry (s : FfmpegFrames) (e : Env)
    (h : s.finished = true ∨ s.num_frames ≤ s.frames_read ∨ s.timeout_time < e.clock.headD 0) :
    s.next e = (none,
      { s with finished := true, child_killed := true, child_waited := true },
      { e with clock := e.clock.tail }) := by
  have hc : (s.finished || decide (s.num_frames ≤ s.frames_read)
      || decide (s.timeout_time < e.clock.headD 0)) = true := by
    rcases h with h | h | h
    · rw [h, Bool.true_or, Bool.true_or]
    · rw [decide_eq_true h, Bool.or_true, Bool.true_or]
    · rw [decide_eq_true h, Bool.or_true]
  unfold FfmpegFrames.next
  rw [if_pos hc]

/-- An active `next` call delegates to the fill loop. -/
theorem next_active (s : FfmpegFrames) (e : Env) (hf : s.finished = false)
    (hk : s.frames_read < s.num_frames) (ht : e.clock.headD 0 ≤ s.timeout_time) :
    s.next e =
      (match fillLoop s.timeout_time (s.x * s.y * 3 % 2 ^ 32) 0 e.clock.tail e.pipe with
      | (.timeoutHit, clock'', p') => (none, { s with finished := true }, ⟨clock'', p'⟩)
      | (.eofOrErr, clock'', p') => (none, { s with finished := true }, ⟨clock'', p'⟩)
      | (.full, clock'', p') =>
        (some (s.x * s.y * 3 % 2 ^ 32), { s with frames_read := s.frames_read + 1 },
          ⟨clock'', p'⟩)) := by
  have h1 : ¬ (s.num_frames ≤ s.frames_read) := by omega
  have h2 : ¬ (s.timeout_time < e.clock.headD 0) := by omega
  have hc : (s.finished || decide (s.num_frames ≤ s.frames_read)
      || decide (s.timeout_time < e.clock.headD 0)) = false := by
    rw [hf, decide_eq_false h1, decide_eq_false h2]
    rfl
  unfold FfmpegFrames.next
  rw [if_neg (fun hcontra => by rw [hc] at hcontra; exact Bool.false_ne_true hcontra)]

/-- Structural unfolding of one `consume` step. -/
theorem consume_succ (fuel : Nat) (s : FfmpegFrames) (e : Env) :
    consume (fuel + 1) s e =
      match s.next e with
      | (none, s', e') => ([], s', e')
      | (some f, s', e') =>
        let r := consume fuel s' e'
        (f :: r.1, r.2) := rfl

/-- Any single `next` step preserves the frame cap and increments
`frames_read` only strictly below it. -/
theorem next_cases (s : FfmpegFrames) (e : Env) :
    (s.next e).2.1.num_frames = s.num_frames ∧
    ((s.next e).2.1.frames_read = s.frames_read ∨
      ((s.next e).2.1.frames_read = s.frames_read + 1 ∧ s.frames_read < s.num_frames)) := by
  by_cases h1 : s.finished = true ∨ s.num_frames ≤ s.frames_read
      ∨ s.timeout_time < e.clock.headD 0
  · rw [next_entry s e h1]
    simp
  · push_neg at h1
    obtain ⟨hf, hk, ht⟩ := h1
    have hf' : s.finished = false := by simpa using hf
    rcases hfl : fillLoop s.timeout_time (s.x * s.y * 3 % 2 ^ 32) 0 e.clock.tail e.pipe
      with ⟨res, ck, pp⟩
    rw [next_active s e hf' (by omega) (by omega), hfl]
    cases res <;> simp [hk]

/-- `frames_read` never exceeds the frame cap across any run of `next`
calls. -/
theorem consume_frames_read_le (fuel : Nat) :
    ∀ (s : FfmpegFrames) (e : Env), s.frames_read ≤ s.num_frames →
    (consume fuel s e).2.1.frames_read ≤ s.num_frames := by
  induction fuel with
  | zero => intro s e h; simpa [consume] using h
  | succ fuel ih =>
    intro s e h
    rw [consume_succ]
    obtain ⟨hnum, hcase⟩ := next_cases s e
    rcases hnext : s.next e with ⟨f, s', e'⟩
    rw [hnext] at hnum hcase
    simp only at hnum hcase
    cases f with
    | none =>
      simp only
      rcases hcase with hc | ⟨hc, hlt⟩ <;> omega
    | some f =>
      simp only
      have hs' : s'.frames_read ≤ s'.num_frames := by
        rcases hcase with hc | ⟨hc, hlt⟩ <;> omega
      have := ih s' e' hs'
      omega

/-- Core of the frame-count bound: starting from an unfinished session with
`k` frames already read, a clock that never passes the deadline and an
error-free pipe holding `T` bytes, driving the iterator to exhaustion yields
exactly `min (N - k) (T / frame_size)` frames, each of the full frame size,
and leaves the session finished. -/
theorem consume_spec (x y N tt : Nat) (hlen0 : 0 < x * y * 3)
    (hlen32 : x * y * 3 < 2 ^ 32) :
    ∀ (fuel k T : Nat) (clock : List Nat) (chunks : List (Option Nat)) (ck cw : Bool),
    (∀ t ∈ clock, t ≤ tt) → (∀ o ∈ chunks, Option.isSome o) →
    min (N - k) (T / (x * y * 3)) < fuel →
    (consume fuel ⟨x, y, N, k, tt, false, ck, cw⟩ ⟨clock, ⟨T, chunks⟩⟩).1.length
        = min (N - k) (T / (x * y * 3))
    ∧ (∀ f ∈ (consume fuel ⟨x, y, N, k, tt, false, ck, cw⟩ ⟨clock, ⟨T, chunks⟩⟩).1,
        f = x * y * 3)
    ∧ (consume fuel ⟨x, y, N, k, tt, false, ck, cw⟩ ⟨clock, ⟨T, chunks⟩⟩).2.1.finished
        = true := by
  intro fuel
  induction fuel with
  | zero => intro k T clock chunks ck cw _ _ hfuel; exact absurd hfuel (Nat.not_lt_zero _)
  | succ fuel ih =>
    intro k T clock chunks ck cw hclock hchunks hfuel
    have hmod : x * y * 3 % 2 ^ 32 = x * y * 3 := Nat.mod_eq_of_lt hlen32
    have hhead : clock.headD 0 ≤ tt := by
      cases clock with
      | nil => simp [List.headD]
      | cons a l => simpa using hclock a (by simp)
    by_cases hk : N ≤ k
    · -- frame cap already reached: next kills immediately
      have hstep := next_entry ⟨x, y, N, k, tt, false, ck, cw⟩ ⟨clock, ⟨T, chunks⟩⟩
        (Or.inr (Or.inl (by simpa using hk)))
      rw [consume_succ, hstep]
      have hNk : N - k = 0 := by omega
      have hmin : min (N - k) (T / (x * y * 3)) = 0 := by rw [hNk, Nat.zero_min]
      rw [hmin]
      exact ⟨rfl, by simp, rfl⟩
    · -- still below the cap
      have hspec := fillLoop_spec tt (x * y * 3) 0 clock.tail ⟨T, chunks⟩
        (fun t htl => hclock t (List.mem_of_mem_tail htl)) hchunks
      by_cases hT : x * y * 3 ≤ T
      · -- a full frame is available
        obtain ⟨ck', chs', heq, hck', hchs'⟩ := hspec.1 (by simpa using hT)
        have hstep := next_active ⟨x, y, N, k, tt, false, ck, cw⟩ ⟨clock, ⟨T, chunks⟩⟩
          rfl (by simpa using hk) (by simpa using hhead)
        simp only at hstep
        rw [hmod, heq] at hstep
        simp only [Nat.sub_zero] at hstep
        rw [consume_succ, hstep]
        simp only
        have hdiv : T / (x * y * 3) = (T - (x * y * 3)) / (x * y * 3) + 1 :=
          Nat.div_eq_sub_div hlen0 hT
        have hfuel' : min (N - (k + 1)) ((T - (x * y * 3)) / (x * y * 3)) < fuel := by
          rw [hdiv] at hfuel
          omega
        obtain ⟨hlen, hmem, hfin⟩ := ih (k + 1) (T - (x * y * 3)) ck' chs' ck cw hck' hchs'
          hfuel'
        refine ⟨?_, ?_, ?_⟩
        · simp only [List.length_cons, hlen]
          rw [hdiv]
          omega
        · intro f hf
          rcases List.mem_cons.mp hf with hf | hf
          · exact hf
          · exact hmem f hf
        · exact hfin
      · -- fewer than a frame's worth of bytes remain
        obtain ⟨ck', pp, heq⟩ := hspec.2 (by simpa using Nat.lt_of_not_le hT)
        have hstep := next_active ⟨x, y, N, k, tt, false, ck, cw⟩ ⟨clock, ⟨T, chunks⟩⟩
          rfl (by simpa using hk) (by simpa using hhead)
        simp only at hstep
        rw [hmod, heq] at hstep
        rw [consume_succ, hstep]
        have hdiv0 : T / (x * y * 3) = 0 := Nat.div_eq_of_lt (Nat.lt_of_not_le hT)
        have hmin : min (N - k) (T / (x * y * 3)) = 0 := by rw [hdiv0, Nat.min_zero]
        rw [hmin]
        exact ⟨rfl, by simp, rfl⟩

/-- Bind of the `Except` monad on a success. -/
theorem except_bind_ok {ε α β : Type} (a : α) (f : α → Except ε β) :
    ((Except.ok a : Except ε α) >>= f) = f a := rfl

/-- Bind of the `Except` monad on a failure. -/
theorem except_bind_err {ε α β : Type} (e : ε) (f : α → Except ε β) :
    ((Except.error e : Except ε α) >>= f) = .error e := rfl

/-- A non-string JSON field always takes the default branch. -/
theorem parseStrField_nonstr {α : Type} (v : Json) (parse : String → Option α)
    (dflt : α) (err : VideoInfoError) (h : ∀ s, v ≠ .str s) :
    parseStrField v parse dflt err = .ok dflt := by
  unfold parseStrField
  cases v with
  | str s => exact absurd rfl (h s)
  | null => rfl
  | bool b => rfl
  | num n i => rfl
  | arr l => rfl
  | obj l => rfl

/-- A string field that parses yields its value. -/
theorem parseStrField_parses {α : Type} (s : String) (parse : String → Option α)
    (dflt a : α) (err : VideoInfoError) (h : parse s = some a) :
    parseStrField (.str s) parse dflt err = .ok a := by
  show (match parse s with
    | some v => (Except.ok v : Except FfmpegErrorKind α)
    | none => Except.error (.MetadataParseFailure err)) = _
  rw [h]

/-- A string field that fails to parse aborts with the parse error. -/
theorem parseStrField_fails {α : Type} (s : String) (parse : String → Option α)
    (dflt : α) (err : VideoInfoError) (h : parse s = none) :
    parseStrField (.str s) parse dflt err = .error (.MetadataParseFailure err) := by
  show (match parse s with
    | some v => (Except.ok v : Except FfmpegErrorKind α)
    | none => Except.error (.MetadataParseFailure err)) = _
  rw [h]

/-- A field that is absent/non-string or parses successfully yields some value. -/
theorem parseStrField_ok {α : Type} (v : Json) (parse : String → Option α)
    (dflt : α) (err : VideoInfoError)
    (h : ∀ s, v = .str s → (parse s).isSome) :
    ∃ a, parseStrField v parse dflt err = .ok a := by
  cases hv : v with
  | str s =>
    have := h s hv
    cases hp : parse s with
    | none => rw [hp] at this; simp at this
    | some a => exact ⟨a, parseStrField_parses s parse dflt a err hp⟩
  | null => exact ⟨dflt, rfl⟩
  | bool b => exact ⟨dflt, rfl⟩
  | num n i => exact ⟨dflt, rfl⟩
  | arr l => exact ⟨dflt, rfl⟩
  | obj l => exact ⟨dflt, rfl⟩

/-- Building a successful probe from its parts: all three format fields
resolve and the rotation parses. The resolution swap and audio detection are
exactly the source's final steps. -/
theorem new_ok_build (p : String) (j : Json) (d : Rat) (sz bt : Nat)
    (r : FfmpegVideoRotation)
    (hd : parseStrField ((j.get "format").get "duration") parseF64 0
        (.ParseFloatError floatParseErrMsg) = .ok d)
    (hs : parseStrField ((j.get "format").get "size") parseU64 0
        (.ParseIntError intParseErrMsg) = .ok sz)
    (hb : parseStrField ((j.get "format").get "bit_rate") parseU32 0
        (.ParseIntError intParseErrMsg) = .ok bt)
    (hr : parseRotation p j = .ok r) :
    VideoInfo.new p j = .ok
      { duration := d, size := sz, bit_rate := bt
        resolution :=
          if r = .Rot0 ∨ r = .Rot180 then
            ((first_u32_from_video_streams j "width").getD 0,
              (first_u32_from_video_streams j "height").getD 0)
          else
            ((first_u32_from_video_streams j "height").getD 0,
              (first_u32_from_video_streams j "width").getD 0)
        has_audio :=
          match streams_of_type j "audio" with
          | none => false
          | some audio_streams =>
            audio_streams.any (fun stream =>
              match stream.get "codec_type" with
              | .str codec_type => codec_type == "audio"
              | _ => false) } := by
  unfold VideoInfo.new
  rw [hd, except_bind_ok, hs, except_bind_ok, hb, except_bind_ok, hr]
  cases r <;> rfl

/-- If any of the three format fields or the rotation fails, the probe as a
whole fails. -/
theorem new_not_ok (p : String) (j : Json)
    (h : (parseStrField ((j.get "format").get "duration") parseF64 0
            (.ParseFloatError floatParseErrMsg)).isOk = false
       ∨ (parseStrField ((j.get "format").get "size") parseU64 0
            (.ParseIntError intParseErrMsg)).isOk = false
       ∨ (parseStrField ((j.get "format").get "bit_rate") parseU32 0
            (.ParseIntError intParseErrMsg)).isOk = false
       ∨ (parseRotation p j).isOk = false) :
    (VideoInfo.new p j).isOk = false := by
  unfold VideoInfo.new
  cases hd : parseStrField ((j.get "format").get "duration") parseF64 0
      (.ParseFloatError floatParseErrMsg) with
  | error e => rw [except_bind_err]; rfl
  | ok d =>
    rw [except_bind_ok]
    cases hs : parseStrField ((j.get "format").get "size") parseU64 0
        (.ParseIntError intParseErrMsg) with
    | error e => rw [except_bind_err]; rfl
    | ok sz =>
      rw [except_bind_ok]
      cases hb : parseStrField ((j.get "format").get "bit_rate") parseU32 0
          (.ParseIntError intParseErrMsg) with
      | error e => rw [except_bind_err]; rfl
      | ok bt =>
        rw [except_bind_ok]
        cases hr : parseRotation p j with
        | error e => rfl
        | ok r =>
          exfalso
          rcases h with h | h | h | h
          · rw [hd] at h; exact Bool.noConfusion h
          · rw [hs] at h; exact Bool.noConfusion h
          · rw [hb] at h; exact Bool.noConfusion h
          · rw [hr] at h; exact Bool.noConfusion h

/-- Inversion of a successful probe: every stage succeeded and the result's
fields are exactly what the stages produced. -/
theorem new_ok_inv (p : String) (j : Json) (v : VideoInfo)
    (h : VideoInfo.new p j = .ok v) :
    ∃ r, parseRotation p j = .ok r
    ∧ parseStrField ((j.get "format").get "duration") parseF64 0
        (.ParseFloatError floatParseErrMsg) = .ok v.duration
    ∧ parseStrField ((j.get "format").get "size") parseU64 0
        (.ParseIntError intParseErrMsg) = .ok v.size
    ∧ parseStrField ((j.get "format").get "bit_rate") parseU32 0
        (.ParseIntError intParseErrMsg) = .ok v.bit_rate
    ∧ v.resolution = (if r = .Rot0 ∨ r = .Rot180 then
        ((first_u32_from_video_streams j "width").getD 0,
          (first_u32_from_video_streams j "height").getD 0)
      else
        ((first_u32_from_video_streams j "height").getD 0,
          (first_u32_from_video_streams j "width").getD 0))
    ∧ v.has_audio = (match streams_of_type j "audio" with
        | none => false
        | some audio_streams =>
          audio_streams.any (fun stream =>
            match stream.get "codec_type" with
            | .str codec_type => codec_type == "audio"
            | _ => false)) := by
  cases hd : parseStrField ((j.get "format").get "duration") parseF64 0
      (.ParseFloatError floatParseErrMsg) with
  | error e =>
    exfalso
    unfold VideoInfo.new at h
    rw [hd, except_bind_err] at h
    exact Except.noConfusion h
  | ok d =>
    cases hs : parseStrField ((j.get "format").get "size") parseU64 0
        (.ParseIntError intParseErrMsg) with
    | error e =>
      exfalso
      unfold VideoInfo.new at h
      rw [hd, except_bind_ok, hs, except_bind_err] at h
      exact Except.noConfusion h
    | ok sz =>
      cases hb : parseStrField ((j.get "format").get "bit_rate") parseU32 0
          (.ParseIntError intParseErrMsg) with
      | error e =>
        exfalso
        unfold VideoInfo.new at h
        rw [hd, except_bind_ok, hs, except_bind_ok, hb, except_bind_err] at h
        exact Except.noConfusion h
      | ok bt =>
        cases hr : parseRotation p j with
        | error e =>
          exfalso
          unfold VideoInfo.new at h
          rw [hd, except_bind_ok, hs, except_bind_ok, hb, except_bind_ok, hr] at h
          exact Except.noConfusion h
        | ok r =>
          have hb' := new_ok_build p j d sz bt r hd hs hb hr
          rw [h] at hb'
          injection hb' with hv
          subst hv
          exact ⟨r, rfl, rfl, rfl, rfl, rfl, rfl⟩

/-- Whether `streams` is a (filterable) array does not depend on the type
queried. -/
theorem streams_of_type_none (j : Json) (t t' : String)
    (h : streams_of_type j t = none) : streams_of_type j t' = none := by
  unfold streams_of_type at *
  cases hst : j.get "streams" with
  | arr l => rw [hst] at h; simp at h
  | null => rfl
  | bool b => rfl
  | num n i => rfl
  | str s => rfl
  | obj l => rfl

/-- The three shapes the rotation lookup can take. -/
theorem rotationSideData_cases (j : Json) :
    (streams_of_type j "video" = none ∧ rotationSideData j = none)
    ∨ (streams_of_type j "video" = some [] ∧ rotationSideData j = none)
    ∨ (∃ s0 rest, streams_of_type j "video" = some (s0 :: rest)
        ∧ rotationSideData j = some (((s0.get "side_data_list").idx 0).get "rotation")) := by
  unfold rotationSideData
  cases h : streams_of_type j "video" with
  | none => exact Or.inl ⟨rfl, rfl⟩
  | some l =>
    cases l with
    | nil => exact Or.inr (Or.inl ⟨rfl, rfl⟩)
    | cons s0 rest => exact Or.inr (Or.inr ⟨s0, rest, rfl, rfl⟩)

/-- With no video-stream array or no video stream, the rotation is 0. -/
theorem parseRotation_no_video (p : String) (j : Json)
    (h : streams_of_type j "video" = none ∨ streams_of_type j "video" = some []) :
    parseRotation p j = .ok .Rot0 := by
  unfold parseRotation
  rcases h with h | h <;> rw [h]

/-- Unfolding of the rotation block once a first video stream is known. -/
theorem parseRotation_unfold (p : String) (j : Json) (s0 : Json) (rest : List Json)
    (hvs : streams_of_type j "video" = some (s0 :: rest)) :
    parseRotation p j =
      (match ((s0.get "side_data_list").idx 0).get "rotation" with
      | .null => .ok .Rot0
      | .str rotation =>
        match parseI64 rotation with
        | some r =>
          if r = 0 then .ok .Rot0
          else if r = 90 then .ok .Rot90
          else if r = 180 then .ok .Rot180
          else if r = -90 ∨ r = 270 then .ok .Rot270
          else error_out p (toString r)
        | none => .error (.ParseIntError intParseErrMsg)
      | .num rotation isInt =>
        match jsonAsI64 rotation isInt with
        | some r =>
          if r = 0 then .ok .Rot0
          else if r = 90 then .ok .Rot90
          else if r = 180 ∨ r = -180 then .ok .Rot180
          else if r = -90 ∨ r = 270 then .ok .Rot270
          else error_out p (toString r)
        | none => error_out p "<ERROR>"
      | _ => .error (.JsonError "Failed to parse JSON")) := by
  unfold parseRotation
  rw [hvs]

/-- Inversion of a successful `as_i64`. -/
theorem jsonAsI64_some (m : Int) (b : Bool) (n : Int) (h : jsonAsI64 m b = some n) :
    m = n ∧ b = true ∧ -(2 ^ 63) ≤ n ∧ n < 2 ^ 63 := by
  unfold jsonAsI64 at h
  split at h
  · next hcond =>
    injection h with h'
    subst h'
    exact ⟨rfl, hcond.1, hcond.2.1, hcond.2.2⟩
  · exact Option.noConfusion h

/-- The rotation block on a numeric side-data rotation in i64 range. -/
theorem parseRotation_num (p : String) (j : Json) (s0 : Json) (rest : List Json)
    (n : Int) (b : Bool)
    (hvs : streams_of_type j "video" = some (s0 :: rest))
    (hrv : ((s0.get "side_data_list").idx 0).get "rotation" = .num n b)
    (hb : b = true) (h1 : -(2 ^ 63) ≤ n) (h2 : n < 2 ^ 63) :
    parseRotation p j =
      (if n = 0 then .ok .Rot0
       else if n = 90 then .ok .Rot90
       else if n = 180 ∨ n = -180 then .ok .Rot180
       else if n = -90 ∨ n = 270 then .ok .Rot270
       else error_out p (toString n)) := by
  rw [parseRotation_unfold p j s0 rest hvs, hrv]
  have hAs : jsonAsI64 n b = some n := by
    unfold jsonAsI64
    rw [if_pos ⟨hb, h1, h2⟩]
  simp only [hAs]

/-- The rotation block on a string side-data rotation. -/
theorem parseRotation_str (p : String) (j : Json) (s0 : Json) (rest : List Json)
    (s : String)
    (hvs : streams_of_type j "video" = some (s0 :: rest))
    (hrv : ((s0.get "side_data_list").idx 0).get "rotation" = .str s) :
    parseRotation p j =
      (match parseI64 s with
       | some r =>
         if r = 0 then .ok .Rot0
         else if r = 90 then .ok .Rot90
         else if r = 180 then .ok .Rot180
         else if r = -90 ∨ r = 270 then .ok .Rot270
         else error_out p (toString r)
       | none => .error (.ParseIntError intParseErrMsg)) := by
  rw [parseRotation_unfold p j s0 rest hvs, hrv]

/-- The rotation block on an absent (`Null`) side-data rotation. -/
theorem parseRotation_null (p : String) (j : Json) (s0 : Json) (rest : List Json)
    (hvs : streams_of_type j "video" = some (s0 :: rest))
    (hrv : ((s0.get "side_data_list").idx 0).get "rotation" = .null) :
    parseRotation p j = .ok .Rot0 := by
  rw [parseRotation_unfold p j s0 rest hvs, hrv]

/-- Without a video stream there is no width/height to pick up. -/
theorem first_u32_no_video (j : Json)
    (h : streams_of_type j "video" = none ∨ streams_of_type j "video" = some [])
    (f : String) : first_u32_from_video_streams j f = none := by
  unfold first_u32_from_video_streams
  rcases h with h | h <;> rw [h]
  rfl

/-- How the rotation block treats each declared integer rotation value, in
either encoding: the mapping table, the one string/number asymmetry (−180),
and the hard failure on every other value. -/
theorem parseRotation_of_declared (p : String) (j : Json) (n : Int)
    (hd : declaredRotation j = some n) :
    (n = 0 → parseRotation p j = .ok .Rot0)
    ∧ (n = 90 → parseRotation p j = .ok .Rot90)
    ∧ (n = 180 → parseRotation p j = .ok .Rot180)
    ∧ ((n = 270 ∨ n = -90) → parseRotation p j = .ok .Rot270)
    ∧ (∀ b, rotationSideData j = some (.num n b) → n = -180 →
        parseRotation p j = .ok .Rot180)
    ∧ (∀ s, rotationSideData j = some (.str s) → n = -180 →
        parseRotation p j = error_out p (toString n))
    ∧ (¬(n = 0 ∨ n = 90 ∨ n = 180 ∨ n = 270 ∨ n = -90 ∨ n = -180) →
        (parseRotation p j).isOk = false) := by
  rcases rotationSideData_cases j with ⟨hv, hsd⟩ | ⟨hv, hsd⟩ | ⟨s0, rest, hvs, hsd⟩
  · unfold declaredRotation at hd
    rw [hsd] at hd
    exact absurd hd (by simp)
  · unfold declaredRotation at hd
    rw [hsd] at hd
    exact absurd hd (by simp)
  · unfold declaredRotation at hd
    rw [hsd] at hd
    cases hrv : ((s0.get "side_data_list").idx 0).get "rotation" with
    | num m b =>
      rw [hrv] at hd hsd
      simp only at hd
      obtain ⟨hm, hb, h1, h2⟩ := jsonAsI64_some m b n hd
      subst hm
      have hpr := parseRotation_num p j s0 rest m b hvs hrv hb h1 h2
      refine ⟨?_, ?_, ?_, ?_, ?_, ?_, ?_⟩
      · intro h; subst h; rw [hpr]; rfl
      · intro h; subst h; rw [hpr]; rfl
      · intro h; subst h; rw [hpr]; rfl
      · intro h; rcases h with h | h <;> (subst h; rw [hpr]; rfl)
      · intro b' _ h; subst h; rw [hpr]; rfl
      · intro s hcontra
        rw [hsd] at hcontra
        injection hcontra with hcontra
        exact absurd hcontra (by intro hx; exact Json.noConfusion hx)
      · intro hbad
        rw [hpr]
        rw [if_neg (by omega), if_neg (by omega), if_neg (by omega), if_neg (by omega)]
        rfl
    | str s =>
      rw [hrv] at hd hsd
      simp only at hd
      have hpr := parseRotation_str p j s0 rest s hvs hrv
      rw [hd] at hpr
      simp only at hpr
      refine ⟨?_, ?_, ?_, ?_, ?_, ?_, ?_⟩
      · intro h; subst h; rw [hpr]; rfl
      · intro h; subst h; rw [hpr]; rfl
      · intro h; subst h; rw [hpr]; rfl
      · intro h; rcases h with h | h <;> (subst h; rw [hpr]; rfl)
      · intro b' hcontra
        rw [hsd] at hcontra
        injection hcontra with hcontra
        exact absurd hcontra (by intro hx; exact Json.noConfusion hx)
      · intro s' _ h
        subst h
        rw [hpr]
        rw [if_neg (by omega), if_neg (by omega), if_neg (by omega), if_neg (by omega)]
      · intro hbad
        rw [hpr]
        rw [if_neg (by omega), if_neg (by omega), if_neg (by omega), if_neg (by omega)]
        rfl
    | null => rw [hrv] at hd; exact absurd hd (by simp)
    | bool b => rw [hrv] at hd; exact absurd hd (by simp)
    | arr l => rw [hrv] at hd; exact absurd hd (by simp)
    | obj l => rw [hrv] at hd; exact absurd hd (by simp)

/-! ### Claim theorems -/

/-- C1: for every probe output parsed by `VideoInfo::new`, when the first
video stream declares rotation 90 or 270 (or −90), the reported resolution
equals the raw prober's (height, width); when it declares rotation 0 or 180
(or −180, or no rotation at all), the reported resolution equals the raw
prober's (width, height) unchanged. -/
theorem C1_resolution_rotation_swap (p : String) (j : Json) (v : VideoInfo)
    (hv : VideoInfo.new p j = .ok v) :
    ((declaredRotation j = some 90 ∨ declaredRotation j = some 270
        ∨ declaredRotation j = some (-90)) →
      v.resolution = ((first_u32_from_video_streams j "height").getD 0,
                      (first_u32_from_video_streams j "width").getD 0))
    ∧ ((declaredRotation j = some 0 ∨ declaredRotation j = some 180
        ∨ declaredRotation j = some (-180)
        ∨ rotationSideData j = none ∨ rotationSideData j = some .null) →
      v.resolution = ((first_u32_from_video_streams j "width").getD 0,
                      (first_u32_from_video_streams j "height").getD 0)) := by
  obtain ⟨r, hr, _, _, _, hres, _⟩ := new_ok_inv p j v hv
  constructor
  · intro h
    have hr' : parseRotation p j = .ok .Rot90 ∨ parseRotation p j = .ok .Rot270 := by
      rcases h with h | h | h
      · exact Or.inl ((parseRotation_of_declared p j 90 h).2.1 rfl)
      · exact Or.inr ((parseRotation_of_declared p j 270 h).2.2.2.1 (Or.inl rfl))
      · exact Or.inr ((parseRotation_of_declared p j (-90) h).2.2.2.1 (Or.inr rfl))
    rcases hr' with h' | h' <;>
    · rw [hr] at h'
      injection h' with h'
      rw [h'] at hres
      simpa using hres
  · intro h
    have hr' : parseRotation p j = .ok .Rot0 ∨ parseRotation p j = .ok .Rot180 := by
      rcases h with h | h | h | h | h
      · exact Or.inl ((parseRotation_of_declared p j 0 h).1 rfl)
      · exact Or.inr ((parseRotation_of_declared p j 180 h).2.2.1 rfl)
      · -- declared −180: number-encoded gives 180°, string-encoded cannot
        -- coexist with a successful probe
        rcases rotationSideData_cases j with ⟨hva, hsd⟩ | ⟨hva, hsd⟩ | ⟨s0, rest, hvs, hsd⟩
        · exact Or.inl (parseRotation_no_video p j (Or.inl hva))
        · exact Or.inl (parseRotation_no_video p j (Or.inr hva))
        · cases hrv : ((s0.get "side_data_list").idx 0).get "rotation" with
          | num m b =>
            rw [hrv] at hsd
            have hdecl := h
            unfold declaredRotation at hdecl
            rw [hsd] at hdecl
            simp only at hdecl
            obtain ⟨hm, _, _, _⟩ := jsonAsI64_some m b (-180) hdecl
            subst hm
            exact Or.inr ((parseRotation_of_declared p j (-180) h).2.2.2.2.1 b hsd rfl)
          | str s =>
            exfalso
            rw [hrv] at hsd
            have herr := (parseRotation_of_declared p j (-180) h).2.2.2.2.2.1 s hsd rfl
            rw [hr] at herr
            exact Except.noConfusion herr
          | null =>
            rw [hrv] at hsd
            have hdecl := h
            unfold declaredRotation at hdecl
            rw [hsd] at hdecl
            exact absurd hdecl (by simp)
          | bool b =>
            rw [hrv] at hsd
            have hdecl := h
            unfold declaredRotation at hdecl
            rw [hsd] at hdecl
            exact absurd hdecl (by simp)
          | arr l =>
            rw [hrv] at hsd
            have hdecl := h
            unfold declaredRotation at hdecl
            rw [hsd] at hdecl
            exact absurd hdecl (by simp)
          | obj l =>
            rw [hrv] at hsd
            have hdecl := h
            unfold declaredRotation at hdecl
            rw [hsd] at hdecl
            exact absurd hdecl (by simp)
      · -- no rotation side-data at all
        rcases rotationSideData_cases j with ⟨hva, _⟩ | ⟨hva, _⟩ | ⟨s0, rest, hvs, hsd⟩
        · exact Or.inl (parseRotation_no_video p j (Or.inl hva))
        · exact Or.inl (parseRotation_no_video p j (Or.inr hva))
        · rw [hsd] at h; exact Option.noConfusion h
      · -- rotation side-data present but Null
        rcases rotationSideData_cases j with ⟨hva, hsd⟩ | ⟨hva, hsd⟩ | ⟨s0, rest, hvs, hsd⟩
        · exact Or.inl (parseRotation_no_video p j (Or.inl hva))
        · exact Or.inl (parseRotation_no_video p j (Or.inr hva))
        · rw [hsd] at h
          injection h with h
          exact Or.inl (parseRotation_null p j s0 rest hvs h)
    rcases hr' with h' | h' <;>
    · rw [hr] at h'
      injection h' with h'
      rw [h'] at hres
      simpa using hres

/-- Witness for C1 at a concrete probe output: a video stream declaring
rotation 90 with raw width 640 and height 480 reports resolution (480, 640). -/
theorem C1_witness :
    VideoInfo.new "p" (Json.obj [("streams", .arr [ .obj [
        ("codec_type", .str "video"),
        ("side_data_list", .arr [ .obj [("rotation", .num 90 true)] ]),
        ("width", .num 640 true), ("height", .num 480 true)] ])])
      = .ok ⟨0, 0, 0, (480, 640), false⟩
    ∧ declaredRotation (Json.obj [("streams", .arr [ .obj [
        ("codec_type", .str "video"),
        ("side_data_list", .arr [ .obj [("rotation", .num 90 true)] ]),
        ("width", .num 640 true), ("height", .num 480 true)] ])]) = some 90
    ∧ (⟨0, 0, 0, (480, 640), false⟩ : VideoInfo).resolution = (480, 640) :=
  ⟨rfl, rfl,
    (C1_resolution_rotation_swap "p" (Json.obj [("streams", .arr [ .obj [
        ("codec_type", .str "video"),
        ("side_data_list", .arr [ .obj [("rotation", .num 90 true)] ]),
        ("width", .num 640 true), ("height", .num 480 true)] ])])
      ⟨0, 0, 0, (480, 640), false⟩ rfl).1 (Or.inl rfl)⟩

/-- C2 counterexample: the claim says a string-encoded "−180" (value −180,
"in either encoding") normalizes to 180° — but the string branch of
`VideoInfo::new` (ffmpeg_stats.rs:150-156) has no −180 arm, so the probe
fails with a parse error instead. -/
theorem C2_counterexample :
    declaredRotation (Json.obj [("streams", .arr [ .obj [
        ("codec_type", .str "video"),
        ("side_data_list", .arr [ .obj [("rotation", .str "-180")] ])] ])])
      = some (-180)
    ∧ rotationSideData (Json.obj [("streams", .arr [ .obj [
        ("codec_type", .str "video"),
        ("side_data_list", .arr [ .obj [("rotation", .str "-180")] ])] ])])
      = some (.str "-180")
    ∧ (VideoInfo.new "video.mp4" (Json.obj [("streams", .arr [ .obj [
        ("codec_type", .str "video"),
        ("side_data_list", .arr [ .obj [("rotation", .str "-180")] ])] ])])).isOk
      = false :=
  ⟨rfl, rfl, rfl⟩

/-- C2 (amended): `VideoInfo::new` normalizes rotation by 0→0°, 90→90°,
180→180°, −90 or 270→270° in either encoding and an absent rotation defaults
to 0°; a number-encoded −180 normalizes to 180°, but a STRING-encoded
"−180" is a hard parse error (the string branch lacks the −180 arm), and
every other integer value in either encoding fails the probe with a parse
error rather than silently defaulting. -/
theorem C2_rotation_normalization (p : String) (j : Json) :
    ((rotationSideData j = none ∨ rotationSideData j = some .null) →
      parseRotation p j = .ok .Rot0)
    ∧ (∀ n : Int, declaredRotation j = some n →
      ((n = 0 → parseRotation p j = .ok .Rot0)
      ∧ (n = 90 → parseRotation p j = .ok .Rot90)
      ∧ (n = 180 → parseRotation p j = .ok .Rot180)
      ∧ ((n = 270 ∨ n = -90) → parseRotation p j = .ok .Rot270)
      ∧ (∀ b, rotationSideData j = some (.num n b) → n = -180 →
          parseRotation p j = .ok .Rot180)
      ∧ (∀ s, rotationSideData j = some (.str s) → n = -180 →
          (VideoInfo.new p j).isOk = false)
      ∧ (¬(n = 0 ∨ n = 90 ∨ n = 180 ∨ n = 270 ∨ n = -90 ∨ n = -180) →
          (VideoInfo.new p j).isOk = false))) := by
  constructor
  · intro h
    rcases rotationSideData_cases j with ⟨hva, hsd⟩ | ⟨hva, hsd⟩ | ⟨s0, rest, hvs, hsd⟩
    · exact parseRotation_no_video p j (Or.inl hva)
    · exact parseRotation_no_video p j (Or.inr hva)
    · rcases h with h | h
      · rw [hsd] at h; exact Option.noConfusion h
      · rw [hsd] at h
        injection h with h
        exact parseRotation_null p j s0 rest hvs h
  · intro n hd
    obtain ⟨h0, h90, h180, h270, hm180, hs180, hbad⟩ := parseRotation_of_declared p j n hd
    refine ⟨h0, h90, h180, h270, hm180, ?_, ?_⟩
    · intro s hsd hn
      have herr := hs180 s hsd hn
      apply new_not_ok
      refine Or.inr (Or.inr (Or.inr ?_))
      rw [herr]
      rfl
    · intro h
      have := hbad h
      exact new_not_ok p j (Or.inr (Or.inr (Or.inr this)))

/-- Witness for C2 (amended) at a concrete probe output declaring a
number-encoded rotation 270, which normalizes to 270°. -/
theorem C2_witness :
    declaredRotation (Json.obj [("streams", .arr [ .obj [
        ("codec_type", .str "video"),
        ("side_data_list", .arr [ .obj [("rotation", .num 270 true)] ])] ])])
      = some 270
    ∧ parseRotation "p" (Json.obj [("streams", .arr [ .obj [
        ("codec_type", .str "video"),
        ("side_data_list", .arr [ .obj [("rotation", .num 270 true)] ])] ])])
      = .ok .Rot270 :=
  ⟨rfl,
    (((C2_rotation_normalization "p" (Json.obj [("streams", .arr [ .obj [
        ("codec_type", .str "video"),
        ("side_data_list", .arr [ .obj [("rotation", .num 270 true)] ])] ])])).2
      270 rfl).2.2.2.1 (Or.inl rfl))⟩

/-- C3 counterexample: when a zero-byte read mid-frame triggers the
transition (decoder stdout already at end-of-stream), `next` sets the
finished flag and returns (ffmpeg_ops.rs:60-63) WITHOUT killing or waiting
on the child — the claim's "from the moment the finished flag becomes true
... the owned child process has been asked to terminate and been waited on"
is false at that moment. -/
theorem C3_counterexample :
    (((⟨2, 2, 5, 0, 1000, false, false, false⟩ : FfmpegFrames).next
        ⟨[0, 0], ⟨0, []⟩⟩).2.1.finished = true)
    ∧ (((⟨2, 2, 5, 0, 1000, false, false, false⟩ : FfmpegFrames).next
        ⟨[0, 0], ⟨0, []⟩⟩).2.1.child_killed = false)
    ∧ (((⟨2, 2, 5, 0, 1000, false, false, false⟩ : FfmpegFrames).next
        ⟨[0, 0], ⟨0, []⟩⟩).2.1.child_waited = false) := by
  refine ⟨?_, ?_, ?_⟩ <;> simp [FfmpegFrames.next, fillLoop, pipeRead]

/-- C3 (amended): the finished flag is absorbing — once it is true, no
further frame is ever emitted, and every subsequent `next` call kills and
reaps the child, as does destruction (`Drop`); however, on the mid-frame
triggers (zero-byte read, IO error, deadline passing inside the fill loop)
the flag is set without an immediate kill/reap, which is deferred to the
next `next` call or to destruction. -/
theorem C3_finished_absorbing :
    (∀ (s : FfmpegFrames) (e : Env), s.finished = true →
      (s.next e).1 = none ∧ (s.next e).2.1.finished = true
      ∧ (s.next e).2.1.child_killed = true ∧ (s.next e).2.1.child_waited = true)
    ∧ (∀ s : FfmpegFrames, (FfmpegFrames.drop s).child_killed = true
        ∧ (FfmpegFrames.drop s).child_waited = true) := by
  constructor
  · intro s e hf
    rw [next_entry s e (Or.inl hf)]
    exact ⟨rfl, rfl, rfl, rfl⟩
  · intro s
    exact ⟨rfl, rfl⟩

/-- Witness for C3 (amended): a finished session emits nothing and the call
kills and reaps the child. -/
theorem C3_witness :
    (⟨2, 2, 5, 1, 1000, true, false, false⟩ : FfmpegFrames).finished = true
    ∧ ((⟨2, 2, 5, 1, 1000, true, false, false⟩ : FfmpegFrames).next
        ⟨[], ⟨0, []⟩⟩).1 = none
    ∧ ((⟨2, 2, 5, 1, 1000, true, false, false⟩ : FfmpegFrames).next
        ⟨[], ⟨0, []⟩⟩).2.1.child_killed = true :=
  ⟨rfl, (C3_finished_absorbing.1 ⟨2, 2, 5, 1, 1000, true, false, false⟩ ⟨[], ⟨0, []⟩⟩ rfl).1,
    (C3_finished_absorbing.1 ⟨2, 2, 5, 1, 1000, true, false, false⟩ ⟨[], ⟨0, []⟩⟩ rfl).2.2.1⟩

/-- C4: a frame stream with frame limit N whose deadline is never passed
(no timeout) and whose decoder stdout holds T bytes with no IO error yields
exactly min(N, number of complete frames available) = min(N, T / (w*h*3))
images, each exactly w*h*3 bytes (a partial tail is discarded); after the
last one the session is finished, subsequent `next` calls yield `none`
rather than an error, and `frames_read` never exceeds the frame limit. -/
theorem C4_frame_count (x y N T tt fuel : Nat) (clock : List Nat)
    (chunks : List (Option Nat))
    (hlen0 : 0 < x * y * 3) (hlen32 : x * y * 3 < 2 ^ 32)
    (hclock : ∀ t ∈ clock, t ≤ tt)
    (hchunks : ∀ o ∈ chunks, Option.isSome o)
    (hfuel : min N (T / (x * y * 3)) < fuel) :
    (consume fuel ⟨x, y, N, 0, tt, false, false, false⟩ ⟨clock, ⟨T, chunks⟩⟩).1.length
        = min N (T / (x * y * 3))
    ∧ (∀ f ∈ (consume fuel ⟨x, y, N, 0, tt, false, false, false⟩
        ⟨clock, ⟨T, chunks⟩⟩).1, f = x * y * 3)
    ∧ (consume fuel ⟨x, y, N, 0, tt, false, false, false⟩
        ⟨clock, ⟨T, chunks⟩⟩).2.1.finished = true
    ∧ (∀ e' : Env, ((consume fuel ⟨x, y, N, 0, tt, false, false, false⟩
        ⟨clock, ⟨T, chunks⟩⟩).2.1.next e').1 = none)
    ∧ (∀ fuel' : Nat, (consume fuel' ⟨x, y, N, 0, tt, false, false, false⟩
        ⟨clock, ⟨T, chunks⟩⟩).2.1.frames_read ≤ N) := by
  have hs := consume_spec x y N tt hlen0 hlen32 fuel 0 T clock chunks false false
    hclock hchunks (by simpa using hfuel)
  simp only [Nat.sub_zero] at hs
  obtain ⟨hlen, hmem, hfin⟩ := hs
  refine ⟨hlen, hmem, hfin, ?_, ?_⟩
  · intro e'
    rw [next_entry _ e' (Or.inl hfin)]
  · intro fuel'
    exact consume_frames_read_le fuel' ⟨x, y, N, 0, tt, false, false, false⟩
      ⟨clock, ⟨T, chunks⟩⟩ (Nat.zero_le N)

/-- Witness for C4 at a concrete stream: 1×1 frames (3 bytes each), frame
limit 2, 7 bytes available — exactly min(2, 7/3) = 2 frames come out. -/
theorem C4_witness :
    0 < 1 * 1 * 3 ∧ 1 * 1 * 3 < 2 ^ 32 ∧ min 2 (7 / (1 * 1 * 3)) < 3
    ∧ (consume 3 ⟨1, 1, 2, 0, 1000, false, false, false⟩ ⟨[], ⟨7, []⟩⟩).1.length
        = min 2 (7 / (1 * 1 * 3)) :=
  ⟨by decide, by decide, by decide,
    (C4_frame_count 1 1 2 7 1000 3 [] [] (by decide) (by decide)
      (by simp) (by simp) (by decide)).1⟩

set_option maxRecDepth 20000 in
/-- C5 counterexample: the claim says a timed-out bounded command returns a
Timeout-classified error distinct from the generic spawn/IO class. In the
code (ffmpeg_ops.rs:370, 408-411) the watchdog's timeout surfaces as
`Err(io::Error(TimedOut))` and the classifier maps every non-NotFound error
kind — timeout included — to the generic Io class (spec name
`SpawnOrIoFailure`), distinguishable only by its detail text. -/
theorem C5_counterexample :
    run_ffmpeg_command (.ok ()) [] "" none
      = (.error (.SpawnOrIoFailure "TimedOut"), false)
    ∧ FfmpegErrorKind.SpawnOrIoFailure "TimedOut" ≠ FfmpegErrorKind.Timeout := by
  constructor
  · show classifyExitStatus (watchdogLoop [] 0 0) "" none = _
    rw [watchdogLoop_timedOut [] 0 0 (by simp)]
    rfl
  · decide

set_option maxRecDepth 20000 in
/-- C5 (amended): for every bounded command whose child has not exited when
the watchdog's 60-second polling ceiling is reached (every `try_wait` poll
reports it still running), `run_ffmpeg_command` returns the generic
spawn/IO-failure class carrying the `TimedOut` error-kind Debug text as its
detail — not a distinct Timeout class — and the runner does not itself kill
the child process. -/
theorem C5_timeout_classification (polls : List TryWaitRes) (stdout_acc : String)
    (stderr_acc : Option String)
    (hpolls : ∀ q ∈ polls, q = TryWaitRes.running) :
    run_ffmpeg_command (.ok ()) polls stdout_acc stderr_acc
      = (.error (.SpawnOrIoFailure "TimedOut"), false)
    ∧ FfmpegErrorKind.SpawnOrIoFailure "TimedOut" ≠ FfmpegErrorKind.Timeout := by
  constructor
  · show classifyExitStatus (watchdogLoop polls 0 0) stdout_acc stderr_acc = _
    rw [watchdogLoop_timedOut polls 0 0 hpolls]
    rfl
  · decide

set_option maxRecDepth 20000 in
/-- Witness for C5 (amended): sixty polls of a still-running child. -/
theorem C5_witness :
    (∀ q ∈ List.replicate 60 TryWaitRes.running, q = TryWaitRes.running)
    ∧ run_ffmpeg_command (.ok ()) (List.replicate 60 TryWaitRes.running) "out" none
      = (.error (.SpawnOrIoFailure "TimedOut"), false) :=
  ⟨fun _ hq => List.eq_of_mem_replicate hq,
    (C5_timeout_classification (List.replicate 60 TryWaitRes.running) "out" none
      (fun _ hq => List.eq_of_mem_replicate hq)).1⟩

/-- C9: whenever `next` fully fills its frame buffer and returns an image,
the buffer length is exactly width·height·3, so the
`RgbImage::from_raw(...).unwrap()` at ffmpeg_ops.rs:73 cannot fail, provided
width·height·3 does not overflow u32 (the buffer is allocated with the
u32 product `(x * y * 3) as usize`). -/
theorem C9_from_raw_safe (s : FfmpegFrames) (e : Env) (frame : Nat)
    (s' : FfmpegFrames) (e' : Env)
    (hov : s.x * s.y * 3 < 2 ^ 32)
    (h : s.next e = (some frame, s', e')) :
    frame = s.x * s.y * 3
    ∧ (rgbImage_from_raw s.x s.y frame).isSome = true := by
  have hframe : frame = s.x * s.y * 3 := by
    by_cases hc : s.finished = true ∨ s.num_frames ≤ s.frames_read
        ∨ s.timeout_time < e.clock.headD 0
    · rw [next_entry s e hc] at h
      exact Option.noConfusion (congrArg Prod.fst h)
    · push_neg at hc
      obtain ⟨hf, hk, ht⟩ := hc
      rcases hfl : fillLoop s.timeout_time (s.x * s.y * 3 % 2 ^ 32) 0 e.clock.tail e.pipe
        with ⟨res, ck, pp⟩
      rw [next_active s e (by simpa using hf) (by omega) (by omega), hfl] at h
      cases res
      · exact Option.noConfusion (congrArg Prod.fst h)
      · exact Option.noConfusion (congrArg Prod.fst h)
      · have := congrArg Prod.fst h
        simp only at this
        injection this with this
        rw [← this, Nat.mod_eq_of_lt hov]
  refine ⟨hframe, ?_⟩
  subst hframe
  unfold rgbImage_from_raw image_buffer_len
  rw [if_pos (by omega)]
  simp

/-- Witness for C9: a 1×1 session reading a full 3-byte frame. -/
theorem C9_witness :
    (⟨1, 1, 1, 0, 10, false, false, false⟩ : FfmpegFrames).next ⟨[], ⟨3, []⟩⟩
      = (some 3, ⟨1, 1, 1, 1, 10, false, false, false⟩, ⟨[], ⟨0, []⟩⟩)
    ∧ (rgbImage_from_raw 1 1 3).isSome = true := by
  have hnext : (⟨1, 1, 1, 0, 10, false, false, false⟩ : FfmpegFrames).next ⟨[], ⟨3, []⟩⟩
      = (some 3, ⟨1, 1, 1, 1, 10, false, false, false⟩, ⟨[], ⟨0, []⟩⟩) := by
    simp [FfmpegFrames.next, fillLoop, pipeRead]
  exact ⟨hnext,
    (C9_from_raw_safe ⟨1, 1, 1, 0, 10, false, false, false⟩ ⟨[], ⟨3, []⟩⟩ 3
      ⟨1, 1, 1, 1, 10, false, false, false⟩ ⟨[], ⟨0, []⟩⟩ (by decide) hnext).2⟩

/-- C6: `VideoInfo::new` treats duration, size and bit_rate as
string-encoded numerics — a missing or non-string field yields 0 (0.0 for
duration) without failing the probe, while a present string that fails
numeric parsing makes the whole probe return an error. -/
theorem C6_format_fields (p : String) (j : Json) :
    (∀ v, VideoInfo.new p j = .ok v →
      ((∀ s, (Json.get (Json.get j "format") "duration") ≠ .str s) → v.duration = 0)
      ∧ ((∀ s, (Json.get (Json.get j "format") "size") ≠ .str s) → v.size = 0)
      ∧ ((∀ s, (Json.get (Json.get j "format") "bit_rate") ≠ .str s) → v.bit_rate = 0))
    ∧ (∀ d, (Json.get (Json.get j "format") "duration") = .str d → parseF64 d = none →
        (VideoInfo.new p j).isOk = false)
    ∧ (∀ d, (Json.get (Json.get j "format") "size") = .str d → parseU64 d = none →
        (VideoInfo.new p j).isOk = false)
    ∧ (∀ d, (Json.get (Json.get j "format") "bit_rate") = .str d → parseU32 d = none →
        (VideoInfo.new p j).isOk = false)
    ∧ (((∀ s, (Json.get (Json.get j "format") "duration") ≠ .str s)
        ∧ (∀ s, (Json.get (Json.get j "format") "size") ≠ .str s)
        ∧ (∀ s, (Json.get (Json.get j "format") "bit_rate") ≠ .str s)
        ∧ (parseRotation p j).isOk = true) → (VideoInfo.new p j).isOk = true) := by
  refine ⟨?_, ?_, ?_, ?_, ?_⟩
  · intro v hv
    obtain ⟨r, _, hd, hs, hb, _, _⟩ := new_ok_inv p j v hv
    refine ⟨?_, ?_, ?_⟩
    · intro hns
      rw [parseStrField_nonstr _ _ _ _ hns] at hd
      injection hd with hd
      exact hd.symm
    · intro hns
      rw [parseStrField_nonstr _ _ _ _ hns] at hs
      injection hs with hs
      exact hs.symm
    · intro hns
      rw [parseStrField_nonstr _ _ _ _ hns] at hb
      injection hb with hb
      exact hb.symm
  · intro d hstr hfail
    apply new_not_ok
    refine Or.inl ?_
    rw [hstr, parseStrField_fails d parseF64 0 _ hfail]
    rfl
  · intro d hstr hfail
    apply new_not_ok
    refine Or.inr (Or.inl ?_)
    rw [hstr, parseStrField_fails d parseU64 0 _ hfail]
    rfl
  · intro d hstr hfail
    apply new_not_ok
    refine Or.inr (Or.inr (Or.inl ?_))
    rw [hstr, parseStrField_fails d parseU32 0 _ hfail]
    rfl
  · rintro ⟨hd, hs, hb, hrot⟩
    cases hr : parseRotation p j with
    | error e => rw [hr] at hrot; exact Bool.noConfusion hrot
    | ok r =>
      rw [new_ok_build p j 0 0 0 r (parseStrField_nonstr _ _ _ _ hd)
        (parseStrField_nonstr _ _ _ _ hs) (parseStrField_nonstr _ _ _ _ hb) hr]
      rfl

/-- Witness for C6 at a concrete probe output with all three fields absent:
the probe succeeds with zero values. -/
theorem C6_witness :
    (VideoInfo.new "p" (Json.obj [("streams", .arr [])])).isOk = true
    ∧ (∀ s, (Json.get (Json.get (Json.obj [("streams", .arr [])]) "format") "duration")
        ≠ Json.str s) :=
  ⟨(C6_format_fields "p" (Json.obj [("streams", .arr [])])).2.2.2.2
      ⟨fun _ h => Json.noConfusion h, fun _ h => Json.noConfusion h,
        fun _ h => Json.noConfusion h, rfl⟩,
    fun _ h => Json.noConfusion h⟩

/-- C7: for every source whose resolved `VideoInfo` has a zero width or
height, `FfmpegFrameReaderBuilder::spawn` fails with `InvalidResolution`
before the decoder process is ever spawned. -/
theorem C7_invalid_resolution (probe : Except FfmpegErrorKind VideoInfo)
    (v : VideoInfo) (num_frames timeout_secs : Option Nat)
    (spawnChild : Except FfmpegErrorKind Unit) (now : Nat)
    (hp : probe = .ok v) (hz : v.resolution.1 = 0 ∨ v.resolution.2 = 0) :
    FfmpegFrameReaderBuilder.spawn probe num_frames timeout_secs spawnChild now
      = .noLaunch .InvalidResolution := by
  subst hp
  unfold FfmpegFrameReaderBuilder.spawn
  have hme : (Except.ok v : Except FfmpegErrorKind VideoInfo).mapError
      (fun e => FfmpegErrorKind.SpawnOrIoFailure e.display) = .ok v := rfl
  rw [hme]
  rcases hres : v.resolution with ⟨a, b⟩
  rw [hres] at hz
  simp only at hz
  simp only [hres]
  rw [if_pos hz]

/-- Witness for C7: a probe resolving to a 0×480 resolution never launches
the decoder. -/
theorem C7_witness :
    ((⟨0, 0, 0, (0, 480), false⟩ : VideoInfo).resolution.1 = 0
      ∨ (⟨0, 0, 0, (0, 480), false⟩ : VideoInfo).resolution.2 = 0)
    ∧ FfmpegFrameReaderBuilder.spawn (.ok ⟨0, 0, 0, (0, 480), false⟩)
        (some 10) none (.ok ()) 0 = .noLaunch .InvalidResolution :=
  ⟨Or.inl rfl,
    C7_invalid_resolution (.ok ⟨0, 0, 0, (0, 480), false⟩) ⟨0, 0, 0, (0, 480), false⟩
      (some 10) none (.ok ()) 0 rfl (Or.inl rfl)⟩

/-- C8: `is_video_file` accepts exactly when the probe output's codec-type
field (field 1 of the '|'-separated compact row; field 0 is codec_name)
equals "video" and the duration field is at least 1.0 second, where an
absent or unparseable duration defaults to treating the file as long enough
(it parses as 999.0, so it causes neither rejection nor an error). -/
theorem C8_is_video_file (stdout : String) :
    is_video_file stdout = true ↔
      (((splitOnPipe (trimChars stdout.data)).get? 1).getD [] = "video".data
       ∧ (parseF64 (String.mk (trimChars
            (((splitOnPipe (trimChars stdout.data)).get? 2).getD []))) = none
          ∨ ∀ d, parseF64 (String.mk (trimChars
            (((splitOnPipe (trimChars stdout.data)).get? 2).getD []))) = some d →
            (1 : Rat) ≤ d)) := by
  unfold is_video_file
  by_cases hct : ((splitOnPipe (trimChars stdout.data)).get? 1).getD [] = "video".data
  · rw [if_neg (not_not_intro hct)]
    cases hp : parseF64 (String.mk (trimChars
        (((splitOnPipe (trimChars stdout.data)).get? 2).getD []))) with
    | none =>
      rw [show (none : Option Rat).getD 999 = 999 from rfl, if_neg (by norm_num)]
      exact iff_of_true rfl ⟨hct, Or.inl rfl⟩
    | some d =>
      rw [Option.getD_some]
      by_cases hd : d < 1
      · rw [if_pos (by simpa using hd)]
        constructor
        · intro h; exact Bool.noConfusion h
        · rintro ⟨-, h | h⟩
          · exact Option.noConfusion h
          · exact absurd (h d rfl) (by exact not_le.mpr hd)
      · rw [if_neg (by simpa using hd)]
        constructor
        · intro _
          refine ⟨hct, Or.inr ?_⟩
          intro d' hd'
          injection hd' with hd'
          subst hd'
          exact not_lt.mp hd
        · intro _; rfl
  · rw [if_pos hct]
    constructor
    · intro h; exact Bool.noConfusion h
    · rintro ⟨h, -⟩; exact absurd h hct

/-- C10 counterexample: a probe JSON whose streams array contains an audio
stream but no video stream — `VideoInfo::new` succeeds with resolution
(0, 0) as the claim says, but `has_audio` is `true`, not `false`. -/
theorem C10_counterexample :
    streams_of_type (Json.obj [("streams", .arr [.obj [("codec_type", .str "audio")]])])
        "video" = some []
    ∧ VideoInfo.new "p" (Json.obj [("streams", .arr [.obj [("codec_type", .str "audio")]])])
        = .ok ⟨0, 0, 0, (0, 0), true⟩ :=
  ⟨rfl, rfl⟩

/-- C10 (amended): for every probe JSON whose format-level fields are
well-formed but whose `streams` key is absent, not an array, or contains no
video stream, `VideoInfo::new` still succeeds, with rotation treated as 0°
and resolution (0, 0) — missing stream data never fails the probe by
itself; `has_audio` is `false` whenever `streams` is absent or not an
array, but when a streams array contains audio (and no video) streams,
`has_audio` is `true`. -/
theorem C10_no_video_stream (p : String) (j : Json)
    (hdur : ∀ s, (Json.get (Json.get j "format") "duration") = .str s → (parseF64 s).isSome)
    (hsize : ∀ s, (Json.get (Json.get j "format") "size") = .str s → (parseU64 s).isSome)
    (hbr : ∀ s, (Json.get (Json.get j "format") "bit_rate") = .str s → (parseU32 s).isSome)
    (hnv : streams_of_type j "video" = none ∨ streams_of_type j "video" = some []) :
    ∃ v, VideoInfo.new p j = .ok v
    ∧ v.resolution = (0, 0)
    ∧ parseRotation p j = .ok .Rot0
    ∧ (streams_of_type j "video" = none → v.has_audio = false) := by
  obtain ⟨d, hd⟩ := parseStrField_ok _ parseF64 0 (.ParseFloatError floatParseErrMsg) hdur
  obtain ⟨sz, hs⟩ := parseStrField_ok _ parseU64 0 (.ParseIntError intParseErrMsg) hsize
  obtain ⟨bt, hb⟩ := parseStrField_ok _ parseU32 0 (.ParseIntError intParseErrMsg) hbr
  have hrot := parseRotation_no_video p j hnv
  have hbuild := new_ok_build p j d sz bt .Rot0 hd hs hb hrot
  refine ⟨_, hbuild, ?_, hrot, ?_⟩
  · simp only
    rw [if_pos (Or.inl True.intro)]
    rw [first_u32_no_video j hnv "width", first_u32_no_video j hnv "height"]
    rfl
  · intro hnone
    simp only
    rw [streams_of_type_none j "video" "audio" hnone]

/-- Witness for C10 (amended): an empty probe object (no format, no
streams) succeeds with resolution (0, 0), rotation 0 and no audio. -/
theorem C10_witness :
    (streams_of_type (Json.obj []) "video" = none
      ∨ streams_of_type (Json.obj []) "video" = some [])
    ∧ ∃ v, VideoInfo.new "p" (Json.obj []) = .ok v
      ∧ v.resolution = (0, 0)
      ∧ parseRotation "p" (Json.obj []) = .ok .Rot0
      ∧ (streams_of_type (Json.obj []) "video" = none → v.has_audio = false) :=
  ⟨Or.inl rfl,
    C10_no_video_stream "p" (Json.obj [])
      (fun _ h => Json.noConfusion h) (fun _ h => Json.noConfusion h)
      (fun _ h => Json.noConfusion h) (Or.inl rfl)⟩
